import Mathlib

/-!
Shallow embedding of the event-driven rendering core of the `mazest`
repository (grid cells, grid events, the bounded event history, the compact
diff grid state, the quantized speed scale, the renderer's paint/step
operations, and the producer-side `Grid::set`), together with proofs of the
specification's testable properties about them.

Machine integers (`u16`, `usize`, `u32`) are modelled as `Nat`; all the
operations verified here stay far below any overflow boundary, and where the
Rust code could panic (slice indexing out of range) the embedding returns
`Option` with `none` standing for the panic.
-/

namespace Mazest

/-- Orientation of a route cell, from `src/maze/mod.rs`. -/
inductive Orientation where
  | horizontal
  | vertical
  deriving DecidableEq, Repr

/-- Path-cell variants, from `src/maze/cell.rs` (`PathType`). -/
inductive PathType where
  | route (o : Orientation)
  | empty
  | visited
  | start
  | goal
  | pacman
  | ghost
  deriving DecidableEq, Repr

/-- Wall-cell variants, from `src/maze/cell.rs` (`WallType`). -/
inductive WallType where
  | wall
  | mark
  deriving DecidableEq, Repr

/-- A grid cell, from `src/maze/cell.rs` (`GridCell`). -/
inductive GridCell where
  | path (p : PathType)
  | wall (w : WallType)
  deriving DecidableEq, Repr

/-- `GridCell::EMPTY`. -/
def GridCell.EMPTY : GridCell := .path .empty

/-- `GridCell::WALL`. -/
def GridCell.WALL : GridCell := .wall .wall

/-- `GridCell::CELL_WIDTH`: the fixed rendered width of a cell, in terminal
columns. -/
def GridCell.CELL_WIDTH : Nat := 2

/-- A grid mutation event, from `src/maze/grid.rs` (`GridEvent`). Coordinates
and dimensions are `u16` in the source, modelled as `Nat`. -/
inductive GridEvent where
  | initial (cell : GridCell) (width height : Nat)
  | update (coord : Nat × Nat) (old new : GridCell)
  deriving DecidableEq, Repr

/-! ## Display glyphs and their unicode width (claim C8)

The glyph strings are taken from `impl fmt::Display for GridCell` in
`src/maze/cell.rs`, written here as lists of unicode codepoints. -/

/-- Codepoints of the glyph printed for a cell by the `Display`
implementation in `src/maze/cell.rs`. The route glyphs use the private-use
codepoints U+EF4C / U+EF4D present in the source file; the remaining glyphs
are `"  "`, `"* "`, and the emoji squares / ghost. -/
def GridCell.glyph : GridCell → List Nat
  | .path (.route .horizontal) => [0xEF4C, 0xEF4C]
  | .path (.route .vertical) => [0xEF4D, 0x20]
  | .path .empty => [0x20, 0x20]
  | .path .visited => [0x2A, 0x20]
  | .path .start => [0x1F7E9]
  | .path .goal => [0x1F7E5]
  | .path .pacman => [0x1F7E1]
  | .path .ghost => [0x1F47B]
  | .wall .wall => [0x2B1C]
  | .wall .mark => [0x1F7EA]

/-- Modelled from the spec: the display width of a codepoint as computed by
the external `unicode-width` crate (the terminal-driver capability of spec
section 6), restricted to the codepoints that occur in the cell glyphs:
East-Asian-Wide codepoints (the geometric squares U+2B1B..U+2B1C and the
emoji block U+1F300..U+1F9FF) are 2 columns wide, every other glyph
codepoint (ASCII and private-use) is 1 column wide. -/
def charDisplayWidth (c : Nat) : Nat :=
  if (0x2B1B ≤ c ∧ c ≤ 0x2B1C) ∨ (0x1F300 ≤ c ∧ c ≤ 0x1F9FF) then 2 else 1

/-- Total display width of a glyph string. -/
def glyphWidth (g : List Nat) : Nat :=
  (g.map charDisplayWidth).sum

/-! ## GridEventHistory, from `src/app/history.rs` -/

/-- The bounded event history: most recent event at the front of
`event_history`, a browsing cursor `history_index`, and the capacity
`max_num_events`. -/
structure GridEventHistory where
  event_history : List GridEvent
  history_index : Nat
  max_num_events : Nat
  deriving DecidableEq, Repr

/-- `GridEventHistory::new(max_num_events)`. -/
def GridEventHistory.new (max_num_events : Nat) : GridEventHistory :=
  { event_history := [], history_index := 0, max_num_events := max_num_events }

/-- `GridEventHistory::history_forward`: returns the stepped-to event (if
any) together with the updated history, since the Rust method mutates
`self`. -/
def GridEventHistory.history_forward (h : GridEventHistory) :
    Option GridEvent × GridEventHistory :=
  match h.history_index with
  | 0 => (none, h)
  | i + 1 => (h.event_history.get? i, { h with history_index := i })

/-- `GridEventHistory::history_backward`. -/
def GridEventHistory.history_backward (h : GridEventHistory) :
    Option GridEvent × GridEventHistory :=
  if h.history_index + 1 ≥ h.event_history.length then (none, h)
  else
    (h.event_history.get? (h.history_index + 1),
     { h with history_index := h.history_index + 1 })

/-- `GridEventHistory::add_event`. -/
def GridEventHistory.add_event (h : GridEventHistory) (e : GridEvent) :
    GridEventHistory :=
  match h.max_num_events with
  | 0 => h
  | _ + 1 =>
    { h with
      event_history := e :: h.event_history.take (h.max_num_events - 1),
      history_index := 0 }

/-- `GridEventHistory::current_event`. -/
def GridEventHistory.current_event (h : GridEventHistory) : Option GridEvent :=
  h.event_history.get? h.history_index

/-- Feeding a sequence of events to `add_event` in order. -/
def GridEventHistory.addEvents (h : GridEventHistory) (es : List GridEvent) :
    GridEventHistory :=
  es.foldl GridEventHistory.add_event h

/-! ## GridState, from `src/app/renderer.rs` (compact diff state)

The Rust `changes` field is a `HashMap<(u16,u16), GridCell>`; a hash map is
extensional (equal iff the key-value sets are equal), so it is embedded as a
function `(Nat × Nat) → Option GridCell` with pointwise insert/remove. -/

/-- Compact representation of the current grid state
(`GridState` in `src/app/renderer.rs`). -/
structure GridState where
  initial : Option (GridCell × Nat × Nat)
  changes : Nat × Nat → Option GridCell

/-- The empty `GridState` (`GridState::default()`): no initial event seen,
no recorded changes. -/
def GridState.empty : GridState :=
  { initial := none, changes := fun _ => none }

/-- `GridState::dims`. -/
def GridState.dims (s : GridState) : Option (Nat × Nat) :=
  s.initial.map (fun x => (x.2.1, x.2.2))

/-- Point insertion into the changes map (`HashMap::insert`). -/
def mapInsert (m : Nat × Nat → Option GridCell) (k : Nat × Nat)
    (v : GridCell) : Nat × Nat → Option GridCell :=
  fun p => if p = k then some v else m p

/-- Point removal from the changes map (`HashMap::remove`). -/
def mapRemove (m : Nat × Nat → Option GridCell) (k : Nat × Nat) :
    Nat × Nat → Option GridCell :=
  fun p => if p = k then none else m p

/-- `GridState::add_event`: an `Initial` replaces the initial data and clears
the changes; an `Update` inserts its `new` value, or removes the entry when
`new` equals the initial fill cell; an `Update` before any `Initial` is
ignored. The `old` field is ignored. -/
def GridState.add_event (s : GridState) (e : GridEvent) : GridState :=
  match e with
  | .initial cell width height =>
    { initial := some (cell, width, height), changes := fun _ => none }
  | .update coord _ new =>
    match s.initial with
    | some (initial, _, _) =>
      if new = initial then { s with changes := mapRemove s.changes coord }
      else { s with changes := mapInsert s.changes coord new }
    | none => s

/-- The current value the compact state holds for a coordinate, given the
initial fill cell: the changed value if recorded, the fill cell otherwise. -/
def GridState.valueAt (s : GridState) (c : GridCell) (p : Nat × Nat) :
    GridCell :=
  (s.changes p).getD c

/-- Replaying a whole event sequence through `GridState::add_event`. -/
def GridState.addEvents (s : GridState) (es : List GridEvent) : GridState :=
  es.foldl GridState.add_event s

/-! ## The terminal image

A terminal paint is abstracted to the grid cell it displays at a grid
coordinate (the source positions the cursor at column
`x * GridCell::CELL_WIDTH`, row `y`, a bijective recoding of the grid
coordinate, and prints the cell glyph there). `none` means the location was
never painted. -/

/-- The abstract terminal image: the cell displayed at each grid
coordinate. -/
def Screen : Type := Nat × Nat → Option GridCell

/-- The blank terminal. -/
def Screen.blank : Screen := fun _ => none

/-- Painting a full `width × height` grid of the fill cell, as the `Initial`
arm of `Renderer::render_grid_event` (and the fill loop of
`GridState::recover`) does. -/
def Screen.paintFull (sc : Screen) (cell : GridCell) (width height : Nat) :
    Screen :=
  fun p => if p.1 < width ∧ p.2 < height then some cell else sc p

/-- Painting one cell at one coordinate. -/
def Screen.paintCell (sc : Screen) (coord : Nat × Nat) (cell : GridCell) :
    Screen :=
  fun p => if p = coord then some cell else sc p

/-- `GridState::recover`: the image it leaves on the terminal, painted onto a
cleared screen — the full initial fill overlaid with every entry of the
changes map (each coordinate is written at most once, so the overlay order of
the Rust hash-map iteration does not matter). Does nothing if `initial` is
unset. -/
def GridState.recoverImage (s : GridState) : Screen :=
  match s.initial with
  | none => Screen.blank
  | some (cell, width, height) =>
    fun p =>
      match s.changes p with
      | some v => some v
      | none => if p.1 < width ∧ p.2 < height then some cell else none

/-- The painting performed by `Renderer::render_grid_event` for one event:
an `Initial` always paints the full fill grid; an `Update` paints its `new`
cell at its coordinate only when the renderer's grid state already has
dimensions (`self.grid_state.dims().is_some()` is checked before the state is
folded). -/
def renderPaint (sc : Screen) (gs : GridState) (e : GridEvent) : Screen :=
  match e with
  | .initial cell width height => sc.paintFull cell width height
  | .update coord _ new =>
    if (gs.dims).isSome then sc.paintCell coord new else sc

/-- The screen/state effect of `Renderer::render_grid_event` (ignoring the
resize check and history recording): paint using the pre-event state, then
fold the event into the compact grid state. -/
def renderStep (p : Screen × GridState) (e : GridEvent) :
    Screen × GridState :=
  (renderPaint p.1 p.2 e, p.2.add_event e)

/-- Painting a whole event sequence in emission order through
`Renderer::render_grid_event`. -/
def renderEvents (p : Screen × GridState) (es : List GridEvent) :
    Screen × GridState :=
  es.foldl renderStep p

/-! ## RenderRefreshTimeScale, from `src/app/renderer.rs`

`Duration` is modelled as a `Nat` number of time units (`delta` is 10
microseconds in the source). -/

/-- The quantized speed dial (`RenderRefreshTimeScale`). -/
structure RenderRefreshTimeScale where
  delta : Nat
  levels : Nat
  level : Nat
  deriving DecidableEq, Repr

/-- `RenderRefreshTimeScale::default()`: `delta` = 10 microseconds,
20 levels, starting at mid level 10. -/
def RenderRefreshTimeScale.default : RenderRefreshTimeScale :=
  { delta := 10, levels := 20, level := 10 }

/-- `RenderRefreshTimeScale::current`:
`delta * (((levels - level)) + 1)^2`, written as in the source as
`delta * factor * factor`. -/
def RenderRefreshTimeScale.current (s : RenderRefreshTimeScale) : Nat :=
  s.delta * ((s.levels - s.level) + 1) * ((s.levels - s.level) + 1)

/-- `RenderRefreshTimeScale::speed_up`: saturating increment of `level`
towards `levels - 1`. -/
def RenderRefreshTimeScale.speed_up (s : RenderRefreshTimeScale) :
    RenderRefreshTimeScale :=
  if s.level < s.levels - 1 then { s with level := s.level + 1 }
  else { s with level := s.levels - 1 }

/-- `RenderRefreshTimeScale::slow_down`: saturating decrement of `level`
towards 0. -/
def RenderRefreshTimeScale.slow_down (s : RenderRefreshTimeScale) :
    RenderRefreshTimeScale :=
  if s.level > 0 then { s with level := s.level - 1 } else { s with level := 0 }

/-- Calling `speed_up` a number of times. -/
def RenderRefreshTimeScale.speedUpIter (s : RenderRefreshTimeScale) :
    Nat → RenderRefreshTimeScale
  | 0 => s
  | k + 1 => (s.speedUpIter k).speed_up

/-! ## Grid and `Grid::set`, from `src/maze/grid.rs`

The cell slice is a flat `Box<[GridCell]>` indexed by
`ravel_index(x, y) = y * width + x`. Slice indexing panics when the raveled
index is out of range, modelled by `Option.none`. Event emission through the
optional sender is modelled by returning the list of events the call sends
(empty or a singleton). -/

/-- The producer-side grid (`Grid`), without the sender handle: the events a
call emits are returned instead. -/
structure Grid where
  data : List GridCell
  width : Nat
  height : Nat
  deriving DecidableEq, Repr

/-- `Grid::ravel_index`. -/
def Grid.ravel_index (g : Grid) (x y : Nat) : Nat :=
  y * g.width + x

/-- `Grid::set(coord, cell)`: reads the old value at the raveled index
(panicking — `none` — when the index is outside the data slice); when the new
cell differs from the old it stores the new cell and emits one
`Update { coord, old, new }` event; otherwise it changes nothing and emits
nothing. -/
def Grid.set (g : Grid) (coord : Nat × Nat) (cell : GridCell) :
    Option (Grid × List GridEvent) :=
  let idx := g.ravel_index coord.1 coord.2
  match g.data.get? idx with
  | none => none
  | some old =>
    if old ≠ cell then
      some ({ g with data := g.data.set idx cell },
            [.update coord old cell])
    else
      some (g, [])

/-! ## The bounded grid-event channel (claim C9)

Modelled from the spec: the Event Channel of spec section 4.1 is
`std::sync::mpsc::sync_channel`, a library primitive external to the
repository; only its creation with capacity `MAX_EVENTS_IN_CHANNEL_BUFFER`
is repository code (`src/app/visualize/mod.rs`). The model is the spec's
contract: a FIFO buffer of at most `cap` pending events; `send` enqueues
when a slot is free and otherwise blocks the producer; `recv` dequeues the
oldest pending event. -/

/-- `MAX_EVENTS_IN_CHANNEL_BUFFER` from `src/app/visualize/mod.rs`: the
capacity of the grid-event channel. -/
def MAX_EVENTS_IN_CHANNEL_BUFFER : Nat := 1000

/-- A bounded FIFO channel state: the pending (sent, not yet received)
events, oldest first, and the capacity. -/
structure SyncChannel where
  pending : List GridEvent
  cap : Nat
  deriving DecidableEq, Repr

/-- Outcome of a `send` attempt on the bounded channel. -/
inductive SendOutcome where
  | sent (ch : SyncChannel)
  | blocked
  deriving Repr

/-- Modelled from the spec: `SyncSender::send` on the bounded channel —
enqueue at the back when the buffer has a free slot, block the caller when
the buffer already holds `cap` events. -/
def SyncChannel.send (ch : SyncChannel) (e : GridEvent) : SendOutcome :=
  if ch.pending.length < ch.cap then
    .sent { ch with pending := ch.pending ++ [e] }
  else
    .blocked

/-- Modelled from the spec: `Receiver::recv` — dequeue the oldest pending
event, or `none` when the buffer is empty (the live receiver would block). -/
def SyncChannel.recv (ch : SyncChannel) : Option (GridEvent × SyncChannel) :=
  match ch.pending with
  | [] => none
  | e :: rest => some (e, { ch with pending := rest })

/-- Sending a sequence of events in order, stopping (and reporting the
blocked state) at the first send that blocks. -/
def SyncChannel.sendAll (ch : SyncChannel) :
    List GridEvent → Option SyncChannel
  | [] => some ch
  | e :: es =>
    match ch.send e with
    | .sent ch2 => ch2.sendAll es
    | .blocked => none

/-- A freshly created channel with the repository's capacity. -/
def gridEventChannel : SyncChannel :=
  { pending := [], cap := MAX_EVENTS_IN_CHANNEL_BUFFER }

/-! ## The paused-state Backward step, from `src/app/renderer.rs`

`Renderer::handle_user_action_event` (Backward arm) and
`Renderer::recover_from_history`, restricted to the renderer state they
touch: the history, the compact grid state, and the terminal image. -/

/-- The renderer state acted on by the Backward arm. -/
structure RenderSt where
  history : GridEventHistory
  grid_state : GridState
  screen : Screen

/-- Position (as an offset into the given suffix of the history list) and
payload of the first `Initial` event found, scanning towards older entries.
This is the search performed by the `history_backward` loop of
`Renderer::recover_from_history`. -/
def findInitial : List GridEvent → Option (Nat × GridCell × Nat × Nat)
  | [] => none
  | .initial c w h :: _ => some (0, c, w, h)
  | .update _ _ _ :: rest => (findInitial rest).map (fun r => (r.1 + 1, r.2))

/-- One step of the forward replay loop of `Renderer::recover_from_history`:
`Update` events are painted and folded into the compact state, anything else
is skipped (the loop body is `if let Some(GridEvent::Update ...)`). -/
def replayOne (p : Screen × GridState) (e : GridEvent) : Screen × GridState :=
  match e with
  | .update coord old new =>
    (p.1.paintCell coord new, p.2.add_event (.update coord old new))
  | .initial _ _ _ => p

/-- `Renderer::recover_from_history`: walk backward from the cursor to the
most recent `Initial` strictly older than the current entry; if none exists,
restore the cursor and report `false`; otherwise paint that initial fill,
fold it into the compact state, replay the in-between events forward (back to
the original cursor position), and report `true`. -/
def recoverFromHistory (st : RenderSt) : RenderSt × Bool :=
  let i := st.history.history_index
  let l := st.history.event_history
  match findInitial (l.drop (i + 1)) with
  | none => (st, false)
  | some (k, c, w, h) =>
    let sc1 := st.screen.paintFull c w h
    let gs1 := st.grid_state.add_event (.initial c w h)
    let replayed := ((l.drop i).take (k + 1)).reverse
    let p := replayed.foldl replayOne (sc1, gs1)
    ({ st with grid_state := p.2, screen := p.1 }, true)

/-- The operator feedback produced by the Backward arm (the status-line
messages logged in `Renderer::handle_user_action_event`). -/
inductive BackwardMsg where
  | noCurrentEvent
  | alreadyAtOldest
  | revertedPastInitial
  | noInitialFound
  | alreadyAtOldestAfterRevert
  | paintedInverse (e : GridEvent)
  deriving DecidableEq, Repr

/-- The `UserActionEvent::Backward` arm of
`Renderer::handle_user_action_event`: inspect `current_event()`; for an
`Update`, move the cursor back one step and paint the synthesized inverse
(old/new swapped, not saved to history), unless already at the oldest event;
for an `Initial`, move the cursor back one step and recover the grid to the
state right before that initial via `recover_from_history`, unless already at
the oldest event (restoring the cursor when no earlier initial exists). -/
def backwardStep (st : RenderSt) : RenderSt × BackwardMsg :=
  match st.history.current_event with
  | none => (st, .noCurrentEvent)
  | some (.initial _ _ _) =>
    match st.history.history_backward with
    | (none, _) => (st, .alreadyAtOldest)
    | (some _, h2) =>
      match recoverFromHistory { st with history := h2 } with
      | (st2, true) => (st2, .revertedPastInitial)
      | (st2, false) =>
        ({ st2 with history := (st2.history.history_forward).2 },
         .noInitialFound)
  | some (.update coord old new) =>
    match st.history.history_backward with
    | (none, _) => (st, .alreadyAtOldestAfterRevert)
    | (some _, h2) =>
      let revert : GridEvent := .update coord new old
      let p := renderStep (st.screen, st.grid_state) revert
      ({ history := h2, grid_state := p.2, screen := p.1 },
       .paintedInverse revert)

/-! ## Well-formedness predicates over event sequences -/

/-- Whether the sequence opens with an `Initial` event. -/
def headIsInitial : List GridEvent → Bool
  | .initial _ _ _ :: _ => true
  | _ => false

/-- Whether every `Update` coordinate lies within the bounds declared by the
most recent preceding `Initial` (the first argument carries the dimensions in
force when the sequence starts). -/
def inBoundsSeq : Option (Nat × Nat) → List GridEvent → Bool
  | _, [] => true
  | _, .initial _ w h :: rest => inBoundsSeq (some (w, h)) rest
  | dims, .update coord _ _ :: rest =>
    (match dims with
     | some (w, h) => decide (coord.1 < w ∧ coord.2 < h)
     | none => true) && inBoundsSeq dims rest

/-- Whether every `Update` in the sequence carries an `old` value equal to
the value the compact state (threaded from the given start state) holds at
its coordinate when the update arrives. -/
def oldAccurate : GridState → List GridEvent → Bool
  | _, [] => true
  | s, .initial c w h :: rest => oldAccurate (s.add_event (.initial c w h)) rest
  | s, .update coord old new :: rest =>
    (match s.initial with
     | some (c, _, _) => decide (old = s.valueAt c coord)
     | none => true) && oldAccurate (s.add_event (.update coord old new)) rest

/-! ## Concrete inputs used by the witnesses and counterexamples -/

/-- A three-event demo sequence. -/
def demo3 : List GridEvent :=
  [.initial GridCell.EMPTY 2 2,
   .update (0, 0) GridCell.EMPTY GridCell.WALL,
   .update (1, 1) GridCell.EMPTY GridCell.WALL]

/-- A state whose changes map records a wall at the origin of a 1×1 empty
grid. -/
def c2State : GridState :=
  { initial := some (GridCell.EMPTY, 1, 1),
    changes := fun p => if p = (0, 0) then some GridCell.WALL else none }

/-- An update whose `old` field does not match the current value `c2State`
holds at its coordinate. -/
def c2Event : GridEvent := .update (0, 0) GridCell.EMPTY GridCell.EMPTY

/-- A renderer state paused on an `Initial` event with an older `Initial`
retained in history. -/
def c6State : RenderSt :=
  { history :=
      { event_history :=
          [.initial GridCell.EMPTY 1 1,
           .update (0, 0) GridCell.EMPTY GridCell.WALL,
           .initial GridCell.EMPTY 1 1],
        history_index := 0,
        max_num_events := 100 },
    grid_state := GridState.empty,
    screen := Screen.blank }

/-- A 2×2 grid of empty cells. -/
def c10Grid : Grid :=
  { data := List.replicate 4 GridCell.EMPTY, width := 2, height := 2 }

/-- A clean 2×2 empty state with no recorded changes. -/
def c2WitnessState : GridState :=
  { initial := some (GridCell.EMPTY, 2, 2), changes := fun _ => none }

/-- A full channel load: exactly `MAX_EVENTS_IN_CHANNEL_BUFFER` events. -/
def c9Events : List GridEvent :=
  List.replicate MAX_EVENTS_IN_CHANNEL_BUFFER (.initial GridCell.EMPTY 1 1)

/-- A renderer state paused on an `Update` event that is not the oldest
retained event, with grid dimensions set. -/
def c6WitnessState : RenderSt :=
  { history :=
      { event_history :=
          [.update (0, 0) GridCell.EMPTY GridCell.WALL,
           .update (1, 0) GridCell.EMPTY GridCell.WALL],
        history_index := 0,
        max_num_events := 100 },
    grid_state := { initial := some (GridCell.EMPTY, 2, 2),
                    changes := fun _ => none },
    screen := Screen.blank }

/-- Coupling invariant between the painted terminal image and the compact
diff state: while no initial fill is set the changes map is empty; once one
is set, every in-bounds coordinate displays exactly the value the compact
state holds for it, and the changes map is empty outside the bounds. -/
def ScreenInv (sc : Screen) (s : GridState) : Prop :=
  match s.initial with
  | none => ∀ p, s.changes p = none
  | some (c, w, h) =>
    (∀ p : Nat × Nat, p.1 < w → p.2 < h → sc p = some (s.valueAt c p)) ∧
    (∀ p : Nat × Nat, ¬(p.1 < w ∧ p.2 < h) → s.changes p = none)

/-- The speed dial parametrized by its base duration and quantization count,
positioned at level 0 (the slowest end). -/
def scaleAtLevel0 (delta levels : Nat) : RenderRefreshTimeScale :=
  { delta := delta, levels := levels, level := 0 }

/-! # Theorems -/

/-! ## Helper lemmas about lists -/

lemma take_append_take (l t : List GridEvent) (n : Nat) :
    (l ++ t.take n).take n = (l ++ t).take n := by
  rw [List.take_append_eq_append_take, List.take_append_eq_append_take,
    List.take_take, Nat.min_eq_left (Nat.sub_le n l.length)]

/-! ## Helper lemmas about the event history -/

lemma add_event_max (h : GridEventHistory) (e : GridEvent) :
    (h.add_event e).max_num_events = h.max_num_events := by
  obtain ⟨l, i, m⟩ := h
  cases m <;> rfl

lemma add_event_zero (h : GridEventHistory) (e : GridEvent)
    (hm : h.max_num_events = 0) : h.add_event e = h := by
  obtain ⟨l, i, m⟩ := h
  simp only [GridEventHistory.max_num_events] at hm
  subst hm
  rfl

lemma add_event_index (h : GridEventHistory) (e : GridEvent)
    (hm : h.max_num_events ≠ 0) : (h.add_event e).history_index = 0 := by
  obtain ⟨l, i, m⟩ := h
  simp only [GridEventHistory.max_num_events] at hm
  cases m with
  | zero => exact absurd rfl hm
  | succ m2 => rfl

lemma add_event_history (h : GridEventHistory) (e : GridEvent)
    (hm : h.max_num_events ≠ 0) :
    (h.add_event e).event_history =
      (e :: h.event_history).take h.max_num_events := by
  obtain ⟨l, i, m⟩ := h
  simp only [GridEventHistory.max_num_events] at hm
  cases m with
  | zero => exact absurd rfl hm
  | succ m2 =>
    show e :: l.take (m2 + 1 - 1) = (e :: l).take (m2 + 1)
    simp

lemma addEvents_spec (es : List GridEvent) : ∀ h : GridEventHistory,
    h.max_num_events ≠ 0 → h.event_history.length ≤ h.max_num_events →
    (h.addEvents es).event_history =
      (es.reverse ++ h.event_history).take h.max_num_events ∧
    (h.addEvents es).max_num_events = h.max_num_events := by
  induction es with
  | nil =>
    intro h hm hl
    exact ⟨(List.take_of_length_le hl).symm, rfl⟩
  | cons e rest ih =>
    intro h hm hl
    have hmax := add_event_max h e
    have hstep := add_event_history h e hm
    have h1 : (h.add_event e).max_num_events ≠ 0 := by rw [hmax]; exact hm
    have h2 : (h.add_event e).event_history.length ≤
        (h.add_event e).max_num_events := by
      rw [hstep, hmax]
      simp [List.length_take]
    obtain ⟨ihh, ihm⟩ := ih (h.add_event e) h1 h2
    have hfold : h.addEvents (e :: rest) = (h.add_event e).addEvents rest := rfl
    refine ⟨?_, by rw [hfold, ihm, hmax]⟩
    rw [hfold, ihh, hstep, hmax, take_append_take]
    congr 1
    simp

lemma addEvents_index (es : List GridEvent) : ∀ h : GridEventHistory,
    h.max_num_events ≠ 0 → es ≠ [] → (h.addEvents es).history_index = 0 := by
  induction es with
  | nil => intro h hm hne; exact absurd rfl hne
  | cons e rest ih =>
    intro h hm _
    by_cases hr : rest = []
    · subst hr
      exact add_event_index h e hm
    · exact ih (h.add_event e) (by rw [add_event_max]; exact hm) hr

lemma addEvents_zero (es : List GridEvent) : ∀ h : GridEventHistory,
    h.max_num_events = 0 → h.addEvents es = h := by
  induction es with
  | nil => intro h _; rfl
  | cons e rest ih =>
    intro h hm
    have : h.addEvents (e :: rest) = (h.add_event e).addEvents rest := rfl
    rw [this, add_event_zero h e hm]
    exact ih h hm

/-! ## Claim C3 -/

/-- C3: for every capacity `N` and sequence of `add_event` calls: with
capacity 0 every call is a no-op; with `N > 0`, every `add_event` call resets
the cursor to 0, and once more than `N` events have been added the buffer
holds exactly the `N` most recent events, most recent at the front. -/
theorem C3_history_bounded_capacity (N : Nat) (es : List GridEvent) :
    (∀ h : GridEventHistory, ∀ e, h.max_num_events = 0 → h.add_event e = h) ∧
    ((GridEventHistory.new 0).addEvents es = GridEventHistory.new 0) ∧
    (∀ h : GridEventHistory, ∀ e, h.max_num_events ≠ 0 →
      (h.add_event e).history_index = 0) ∧
    (0 < N → N < es.length →
      ((GridEventHistory.new N).addEvents es).event_history =
        es.reverse.take N ∧
      ((GridEventHistory.new N).addEvents es).event_history.length = N ∧
      ((GridEventHistory.new N).addEvents es).history_index = 0) := by
  refine ⟨fun h e hm => add_event_zero h e hm,
    addEvents_zero es (GridEventHistory.new 0) rfl,
    fun h e hm => add_event_index h e hm,
    fun hN hlen => ?_⟩
  have hm : (GridEventHistory.new N).max_num_events ≠ 0 := by
    show N ≠ 0
    omega
  have hl : (GridEventHistory.new N).event_history.length ≤
      (GridEventHistory.new N).max_num_events := by
    show (List.length []) ≤ N
    simp
  obtain ⟨hh, _⟩ := addEvents_spec es (GridEventHistory.new N) hm hl
  refine ⟨?_, ?_, ?_⟩
  · rw [hh]
    show (es.reverse ++ []).take N = es.reverse.take N
    simp
  · rw [hh]
    show ((es.reverse ++ []).take N).length = N
    simp [List.length_take]
    omega
  · exact addEvents_index es (GridEventHistory.new N) hm
      (List.ne_nil_of_length_pos (by omega))

/-- Witness for C3 at capacity 2 and the three-event sequence `demo3`. -/
theorem C3_witness :
    ((GridEventHistory.new 2).addEvents demo3).event_history =
      demo3.reverse.take 2 ∧
    ((GridEventHistory.new 2).addEvents demo3).event_history.length = 2 ∧
    ((GridEventHistory.new 2).addEvents demo3).history_index = 0 :=
  (C3_history_bounded_capacity 2 demo3).2.2.2 (by decide) (by decide)

/-! ## Claim C5 -/

/-- C5: `history_forward` at cursor 0 returns `None` and leaves the cursor
unchanged; `history_backward` at the oldest retained event (or on an empty
history) returns `None` and leaves the cursor unchanged; repeating either
call past its edge keeps returning `None` with the state intact. -/
theorem C5_step_boundary_idempotence (h : GridEventHistory) :
    (h.history_index = 0 → h.history_forward = (none, h)) ∧
    (h.event_history.length ≤ h.history_index + 1 →
      h.history_backward = (none, h)) ∧
    (h.history_index = 0 →
      ((h.history_forward).2).history_forward = (none, h)) ∧
    (h.event_history.length ≤ h.history_index + 1 →
      ((h.history_backward).2).history_backward = (none, h)) := by
  have hf : h.history_index = 0 → h.history_forward = (none, h) := by
    intro h0
    unfold GridEventHistory.history_forward
    rw [h0]
  have hb : h.event_history.length ≤ h.history_index + 1 →
      h.history_backward = (none, h) := by
    intro hle
    unfold GridEventHistory.history_backward
    rw [if_pos hle]
  refine ⟨hf, hb, ?_, ?_⟩
  · intro h0
    rw [hf h0]
    exact hf h0
  · intro hle
    rw [hb hle]
    exact hb hle

/-- Witness for C5 on the empty history of capacity 3, which is both at
cursor 0 and at the backward edge. -/
theorem C5_witness :
    (GridEventHistory.new 3).history_forward = (none, GridEventHistory.new 3) ∧
    (GridEventHistory.new 3).history_backward =
      (none, GridEventHistory.new 3) :=
  ⟨(C5_step_boundary_idempotence (GridEventHistory.new 3)).1 rfl,
   (C5_step_boundary_idempotence (GridEventHistory.new 3)).2.1 (by decide)⟩

/-! ## Claim C8 -/

/-- C8: every grid cell variant (both route orientations and every wall
variant included) renders to a glyph whose unicode display width is exactly
`GridCell::CELL_WIDTH` (2 columns), so the debug assertion in the `Display`
implementation never fails. -/
theorem C8_cell_glyph_width :
    ∀ c : GridCell, glyphWidth c.glyph = GridCell.CELL_WIDTH := by
  intro c
  rcases c with p | w
  · rcases p with o | _ | _ | _ | _ | _ | _
    · rcases o with _ | _ <;> decide
    all_goals decide
  · rcases w with _ | _ <;> decide

/-! ## Claim C7: helper lemmas about the speed scale -/

lemma speed_up_delta (s : RenderRefreshTimeScale) :
    (s.speed_up).delta = s.delta := by
  unfold RenderRefreshTimeScale.speed_up
  split <;> rfl

lemma speed_up_levels (s : RenderRefreshTimeScale) :
    (s.speed_up).levels = s.levels := by
  unfold RenderRefreshTimeScale.speed_up
  split <;> rfl

lemma speedUpIter_delta (s : RenderRefreshTimeScale) (k : Nat) :
    (s.speedUpIter k).delta = s.delta := by
  induction k with
  | zero => rfl
  | succ k ih => rw [RenderRefreshTimeScale.speedUpIter, speed_up_delta, ih]

lemma speedUpIter_levels (s : RenderRefreshTimeScale) (k : Nat) :
    (s.speedUpIter k).levels = s.levels := by
  induction k with
  | zero => rfl
  | succ k ih => rw [RenderRefreshTimeScale.speedUpIter, speed_up_levels, ih]

lemma speedUpIter_level (s : RenderRefreshTimeScale) (h0 : s.level = 0) :
    ∀ k, (s.speedUpIter k).level = min k (s.levels - 1) := by
  intro k
  induction k with
  | zero =>
    show s.level = min 0 (s.levels - 1)
    rw [h0]
    omega
  | succ k ih =>
    have hl := speedUpIter_levels s k
    show ((s.speedUpIter k).speed_up).level = min (k + 1) (s.levels - 1)
    unfold RenderRefreshTimeScale.speed_up
    by_cases hc : (s.speedUpIter k).level < (s.speedUpIter k).levels - 1
    · rw [if_pos hc]
      show (s.speedUpIter k).level + 1 = min (k + 1) (s.levels - 1)
      rw [hl, ih] at hc
      rw [ih]
      omega
    · rw [if_neg hc]
      show (s.speedUpIter k).levels - 1 = min (k + 1) (s.levels - 1)
      rw [hl, ih] at hc
      rw [hl]
      omega

lemma speedUpIter_level0 (delta levels k : Nat) :
    ((scaleAtLevel0 delta levels).speedUpIter k).level = min k (levels - 1) := by
  simpa [scaleAtLevel0] using
    speedUpIter_level (scaleAtLevel0 delta levels) rfl k

lemma speedUpIter_current (delta levels k : Nat) :
    ((scaleAtLevel0 delta levels).speedUpIter k).current =
      delta * ((levels - min k (levels - 1)) + 1) *
        ((levels - min k (levels - 1)) + 1) := by
  unfold RenderRefreshTimeScale.current
  rw [speedUpIter_delta, speedUpIter_levels, speedUpIter_level0]
  rfl

/-- C7: from level 0, `current()` always equals
`delta * ((levels - level) + 1)^2`, the level stays within
`[0, levels - 1]` (it is `min k (levels - 1)` after `k` calls), each
`speed_up` call strictly decreases `current()` while the level has not yet
reached `levels - 1`, and once the minimum delay is reached further calls
leave `current()` unchanged. -/
theorem C7_speed_scale_monotonicity (delta levels k : Nat) (hd : 0 < delta) :
    ((scaleAtLevel0 delta levels).speedUpIter k).level =
      min k (levels - 1) ∧
    ((scaleAtLevel0 delta levels).speedUpIter k).level ≤ levels - 1 ∧
    ((scaleAtLevel0 delta levels).speedUpIter k).current =
      delta *
        ((levels - ((scaleAtLevel0 delta levels).speedUpIter k).level) + 1)
          ^ 2 ∧
    (k < levels - 1 →
      ((scaleAtLevel0 delta levels).speedUpIter (k + 1)).current <
        ((scaleAtLevel0 delta levels).speedUpIter k).current) ∧
    (levels - 1 ≤ k →
      ((scaleAtLevel0 delta levels).speedUpIter (k + 1)).current =
        ((scaleAtLevel0 delta levels).speedUpIter k).current) := by
  refine ⟨speedUpIter_level0 delta levels k,
    by rw [speedUpIter_level0]; omega, ?_, ?_, ?_⟩
  · rw [speedUpIter_current, speedUpIter_level0]
    ring
  · intro hk
    rw [speedUpIter_current, speedUpIter_current]
    have e1 : min (k + 1) (levels - 1) = k + 1 := by omega
    have e2 : min k (levels - 1) = k := by omega
    rw [e1, e2]
    have e4 : (levels - k) + 1 = (levels - (k + 1)) + 2 := by omega
    rw [e4]
    generalize levels - (k + 1) = a
    have h1 : (a + 1) * (a + 1) < (a + 2) * (a + 2) := by nlinarith
    calc delta * (a + 1) * (a + 1)
        = delta * ((a + 1) * (a + 1)) := by ring
      _ < delta * ((a + 2) * (a + 2)) := Nat.mul_lt_mul_of_pos_left h1 hd
      _ = delta * (a + 2) * (a + 2) := by ring
  · intro hk
    rw [speedUpIter_current, speedUpIter_current]
    have e1 : min (k + 1) (levels - 1) = min k (levels - 1) := by omega
    rw [e1]

/-- Witness for C7 at the source defaults `delta` = 10 microseconds and 20
levels, after 5 calls. -/
theorem C7_witness :
    0 < 10 ∧
    ((scaleAtLevel0 10 20).speedUpIter 5).level = min 5 19 ∧
    ((scaleAtLevel0 10 20).speedUpIter 5).current =
      10 * ((20 - ((scaleAtLevel0 10 20).speedUpIter 5).level) + 1) ^ 2 ∧
    ((scaleAtLevel0 10 20).speedUpIter 6).current <
      ((scaleAtLevel0 10 20).speedUpIter 5).current :=
  ⟨by decide,
   (C7_speed_scale_monotonicity 10 20 5 (by decide)).1,
   (C7_speed_scale_monotonicity 10 20 5 (by decide)).2.2.1,
   (C7_speed_scale_monotonicity 10 20 5 (by decide)).2.2.2.1 (by decide)⟩

/-! ## Claim C2 -/

/-- C2 as stated is false: on a state whose changes map records a wall at
the origin, applying `Update{(0,0), Empty, Empty}` and then its synthesized
inverse (old/new swapped — the same event) erases the recorded wall instead
of restoring the prior state. -/
theorem C2_counterexample :
    ¬ ((c2State.add_event c2Event).add_event
        (GridEvent.update (0, 0) GridCell.EMPTY GridCell.EMPTY) = c2State) := by
  intro hEq
  have h0 := congrArg (fun s => s.changes (0, 0)) hEq
  simp [c2State, c2Event, GridState.add_event, mapRemove, GridCell.EMPTY,
    GridCell.WALL] at h0

/-- C2 amended: applying `Update{coord, old, new}` and then its synthesized
inverse `Update{coord, new, old}` restores the prior `GridState` exactly,
provided that whenever an initial fill is set, `old` equals the state's
current value at `coord` and the changes map does not record the fill cell
itself at `coord` (the minimality invariant `GridState` maintains). -/
theorem C2_reverse_event_amended (s : GridState) (coord : Nat × Nat)
    (old new : GridCell)
    (hsafe : ∀ c w h, s.initial = some (c, w, h) →
      s.changes coord ≠ some c ∧ old = s.valueAt c coord) :
    (s.add_event (.update coord old new)).add_event (.update coord new old)
      = s := by
  obtain ⟨ini, ch⟩ := s
  cases hs : ini with
  | none =>
    subst hs
    simp [GridState.add_event]
  | some cwh =>
    obtain ⟨c, w, h⟩ := cwh
    subst hs
    obtain ⟨hne, hold⟩ := hsafe c w h rfl
    have hch : (old = c ∧ ch coord = none) ∨ (old ≠ c ∧ ch coord = some old) := by
      cases hcc : ch coord with
      | none =>
        left
        refine ⟨?_, rfl⟩
        simpa [GridState.valueAt, hcc] using hold
      | some v =>
        right
        have hov : old = v := by simpa [GridState.valueAt, hcc] using hold
        refine ⟨fun hoc => hne ?_, by rw [hov]⟩
        show ch coord = some c
        rw [hcc, ← hov, hoc]
    by_cases h1 : new = c
    · -- first application removes the entry
      simp only [GridState.add_event, if_pos h1]
      by_cases h2 : old = c
      · simp only [if_pos h2]
        rcases hch with ⟨_, hnone⟩ | ⟨hoc, _⟩
        · congr 1
          funext p
          by_cases hp : p = coord
          · subst hp
            simp [mapRemove, hnone]
          · simp [mapRemove, hp]
        · exact absurd h2 hoc
      · simp only [if_neg h2]
        rcases hch with ⟨hoc, _⟩ | ⟨_, hsome⟩
        · exact absurd hoc h2
        · congr 1
          funext p
          by_cases hp : p = coord
          · subst hp
            simp [mapInsert, mapRemove, hsome]
          · simp [mapInsert, mapRemove, hp]
    · -- first application inserts the new value
      simp only [GridState.add_event, if_neg h1]
      by_cases h2 : old = c
      · simp only [if_pos h2]
        rcases hch with ⟨_, hnone⟩ | ⟨hoc, _⟩
        · congr 1
          funext p
          by_cases hp : p = coord
          · subst hp
            simp [mapInsert, mapRemove, hnone]
          · simp [mapInsert, mapRemove, hp]
        · exact absurd h2 hoc
      · simp only [if_neg h2]
        rcases hch with ⟨hoc, _⟩ | ⟨_, hsome⟩
        · exact absurd hoc h2
        · congr 1
          funext p
          by_cases hp : p = coord
          · subst hp
            simp [mapInsert, hsome]
          · simp [mapInsert, hp]

/-- Witness for the amended C2: an accurate update on a clean 2×2 state
round-trips exactly. -/
theorem C2_witness :
    (c2WitnessState.add_event
        (.update (0, 0) GridCell.EMPTY GridCell.WALL)).add_event
      (.update (0, 0) GridCell.WALL GridCell.EMPTY) = c2WitnessState :=
  C2_reverse_event_amended c2WitnessState (0, 0) GridCell.EMPTY GridCell.WALL
    (by
      intro c w h hs
      have hc : c = GridCell.EMPTY := by
        simp [c2WitnessState] at hs
        exact hs.1.symm
      subst hc
      exact ⟨by simp [c2WitnessState], by simp [c2WitnessState, GridState.valueAt]⟩)

/-! ## Claim C4 -/

/-- Invariant preserved by `GridState::add_event`: when an initial fill is
set, the changes map never records the fill cell itself. -/
lemma addEvents_changes_ne (es : List GridEvent) : ∀ s : GridState,
    (∀ c w h, s.initial = some (c, w, h) →
      ∀ p v, s.changes p = some v → v ≠ c) →
    ∀ c w h, (s.addEvents es).initial = some (c, w, h) →
      ∀ p v, (s.addEvents es).changes p = some v → v ≠ c := by
  induction es with
  | nil => intro s hs; exact hs
  | cons e rest ih =>
    intro s hs
    have hfold : s.addEvents (e :: rest) = (s.add_event e).addEvents rest := rfl
    rw [hfold]
    apply ih
    intro c w h hini p v hch
    cases e with
    | initial c2 w2 h2 =>
      have : (s.add_event (.initial c2 w2 h2)).changes p = none := rfl
      rw [this] at hch
      exact absurd hch (by simp)
    | update coord oldv newv =>
      cases hsi : s.initial with
      | none =>
        have hid : s.add_event (.update coord oldv newv) = s := by
          simp [GridState.add_event, hsi]
        rw [hid] at hini hch
        exact hs c w h hini p v hch
      | some cwh =>
        obtain ⟨c0, w0, h0⟩ := cwh
        have hini0 : (s.add_event (.update coord oldv newv)).initial
            = s.initial := by
          simp only [GridState.add_event, hsi]
          split <;> rfl
        rw [hini0, hsi] at hini
        simp only [Option.some.injEq, Prod.mk.injEq] at hini
        obtain ⟨hc, -, -⟩ := hini
        subst hc
        have hsP := hs c0 w0 h0 hsi
        by_cases hnv : newv = c0
        · have hchg : (s.add_event (.update coord oldv newv)).changes
              = mapRemove s.changes coord := by
            simp [GridState.add_event, hsi, hnv]
          rw [hchg] at hch
          unfold mapRemove at hch
          by_cases hp : p = coord
          · rw [if_pos hp] at hch
            exact absurd hch (by simp)
          · rw [if_neg hp] at hch
            exact hsP p v hch
        · have hchg : (s.add_event (.update coord oldv newv)).changes
              = mapInsert s.changes coord newv := by
            simp [GridState.add_event, hsi, hnv]
          rw [hchg] at hch
          unfold mapInsert at hch
          by_cases hp : p = coord
          · rw [if_pos hp] at hch
            have hv : v = newv := by
              simpa using hch.symm
            rw [hv]
            exact hnv
          · rw [if_neg hp] at hch
            exact hsP p v hch

/-- C4: for sequences whose updates carry accurate `old` values, the final
state satisfies the minimality invariant: a coordinate has an entry in the
changes map iff its current value differs from the initial fill cell, and
applying an update whose `new` equals the initial cell removes that
coordinate's entry. -/
theorem C4_changes_minimal_invariant (es : List GridEvent)
    (hacc : oldAccurate GridState.empty es = true) :
    ∀ c w h, (GridState.empty.addEvents es).initial = some (c, w, h) →
      (∀ p, ((GridState.empty.addEvents es).changes p).isSome ↔
        (GridState.empty.addEvents es).valueAt c p ≠ c) ∧
      (∀ coord o, ((GridState.empty.addEvents es).add_event
          (.update coord o c)).changes coord = none) := by
  intro c w h hini
  have hinv := addEvents_changes_ne es GridState.empty
    (by
      intro c2 w2 h2 _ p v hv
      exact absurd hv (by simp [GridState.empty]))
    c w h hini
  constructor
  · intro p
    constructor
    · intro hsome
      cases hcp : (GridState.empty.addEvents es).changes p with
      | none =>
        rw [hcp] at hsome
        simp at hsome
      | some v =>
        have hvne := hinv p v hcp
        simp [GridState.valueAt, hcp]
        exact hvne
    · intro hne2
      cases hcp : (GridState.empty.addEvents es).changes p with
      | none =>
        exfalso
        apply hne2
        simp [GridState.valueAt, hcp]
      | some v => rfl
  · intro coord o
    have hchg : ((GridState.empty.addEvents es).add_event
        (.update coord o c)).changes
          = mapRemove (GridState.empty.addEvents es).changes coord := by
      simp [GridState.add_event, hini]
    rw [hchg]
    simp [mapRemove]

/-- Witness for C4 on the three-event demo sequence, whose updates all carry
accurate `old` values. -/
theorem C4_witness :
    oldAccurate GridState.empty demo3 = true ∧
    (((GridState.empty.addEvents demo3).changes (0, 0)).isSome ↔
      (GridState.empty.addEvents demo3).valueAt GridCell.EMPTY (0, 0)
        ≠ GridCell.EMPTY) :=
  ⟨by rfl,
   ((C4_changes_minimal_invariant demo3 (by rfl)
      GridCell.EMPTY 2 2 rfl).1) (0, 0)⟩

/-! ## Claim C1 -/

lemma add_event_update_dims (s : GridState) (coord : Nat × Nat)
    (o n : GridCell) : (s.add_event (.update coord o n)).dims = s.dims := by
  cases hsi : s.initial with
  | none => simp [GridState.add_event, hsi]
  | some cwh =>
    obtain ⟨c, w, h⟩ := cwh
    simp only [GridState.add_event, hsi]
    split <;> simp [GridState.dims, hsi]

lemma snd_renderEvents (es : List GridEvent) : ∀ sc s,
    (renderEvents (sc, s) es).2 = s.addEvents es := by
  induction es with
  | nil => intro sc s; rfl
  | cons e rest ih =>
    intro sc s
    have h1 : renderEvents (sc, s) (e :: rest)
        = renderEvents (renderStep (sc, s) e) rest := rfl
    have h2 : s.addEvents (e :: rest) = (s.add_event e).addEvents rest := rfl
    rw [h1, h2]
    exact ih (renderPaint sc s e) (s.add_event e)

lemma renderEvents_inv (es : List GridEvent) : ∀ sc s,
    ScreenInv sc s → inBoundsSeq s.dims es = true →
    ScreenInv (renderEvents (sc, s) es).1 (renderEvents (sc, s) es).2 := by
  induction es with
  | nil => intro sc s hinv _; exact hinv
  | cons e rest ih =>
    intro sc s hinv hbn
    have hfold : renderEvents (sc, s) (e :: rest)
        = renderEvents (renderStep (sc, s) e) rest := rfl
    rw [hfold]
    cases e with
    | initial c2 w2 h2 =>
      apply ih
      · show ScreenInv (sc.paintFull c2 w2 h2)
          { initial := some (c2, w2, h2), changes := fun _ => none }
        refine ⟨fun p hw hh => ?_, fun p _ => rfl⟩
        simp [Screen.paintFull, GridState.valueAt, hw, hh]
      · show inBoundsSeq (some (w2, h2)) rest = true
        simpa [inBoundsSeq] using hbn
    | update coord o n =>
      have hbn2 : inBoundsSeq (s.add_event (.update coord o n)).dims rest
          = true := by
        rw [add_event_update_dims]
        simp only [inBoundsSeq, Bool.and_eq_true] at hbn
        exact hbn.2
      apply ih _ _ _ hbn2
      show ScreenInv (renderPaint sc s (.update coord o n))
        (s.add_event (.update coord o n))
      cases hsi : s.initial with
      | none =>
        have h1 : renderPaint sc s (.update coord o n) = sc := by
          have hd : s.dims = none := by simp [GridState.dims, hsi]
          simp [renderPaint, hd]
        have h2 : s.add_event (.update coord o n) = s := by
          simp [GridState.add_event, hsi]
        rw [h1, h2]
        exact hinv
      | some cwh =>
        obtain ⟨c0, w0, h0⟩ := cwh
        have hd : s.dims = some (w0, h0) := by simp [GridState.dims, hsi]
        have hcb : coord.1 < w0 ∧ coord.2 < h0 := by
          simp only [inBoundsSeq, hd, Bool.and_eq_true, decide_eq_true_eq]
            at hbn
          exact hbn.1
        have h1 : renderPaint sc s (.update coord o n)
            = sc.paintCell coord n := by
          simp [renderPaint, hd]
        rw [h1]
        unfold ScreenInv at hinv
        rw [hsi] at hinv
        obtain ⟨hin, hout⟩ := hinv
        have hini2 : (s.add_event (.update coord o n)).initial
            = some (c0, w0, h0) := by
          simp only [GridState.add_event, hsi]
          split <;> rfl
        unfold ScreenInv
        rw [hini2]
        constructor
        · intro p hw hh
          by_cases hp : p = coord
          · subst hp
            by_cases hn : n = c0
            · have : (s.add_event (.update p o n)).valueAt c0 p = c0 := by
                simp [GridState.add_event, hsi, hn, GridState.valueAt,
                  mapRemove]
              rw [this, Screen.paintCell]
              simp [hn]
            · have : (s.add_event (.update p o n)).valueAt c0 p = n := by
                simp [GridState.add_event, hsi, hn, GridState.valueAt,
                  mapInsert]
              rw [this, Screen.paintCell]
              simp
          · have hval : (s.add_event (.update coord o n)).valueAt c0 p
                = s.valueAt c0 p := by
              simp only [GridState.add_event, hsi]
              split <;> simp [GridState.valueAt, mapRemove, mapInsert, hp]
            rw [hval, Screen.paintCell]
            simp only [hp, if_false]
            exact hin p hw hh
        · intro p hpb
          have hp : p ≠ coord := by
            intro hpe
            subst hpe
            exact hpb hcb
          have : (s.add_event (.update coord o n)).changes p
              = s.changes p := by
            simp only [GridState.add_event, hsi]
            split <;> simp [mapRemove, mapInsert, hp]
          rw [this]
          exact hout p hpb

/-- C1: for an event sequence that starts with an `Initial` and whose
updates stay within the declared bounds, replaying it through
`GridState::add_event` and then reading the image `recover` paints agrees,
at every coordinate of the final declared grid, with the image obtained by
painting each event directly in emission order through
`Renderer::render_grid_event`. -/
theorem C1_diff_state_equivalence (es : List GridEvent)
    (hhead : headIsInitial es = true)
    (hbn : inBoundsSeq none es = true) :
    ∀ c w h, (GridState.empty.addEvents es).initial = some (c, w, h) →
      ∀ p : Nat × Nat, p.1 < w → p.2 < h →
        (GridState.empty.addEvents es).recoverImage p
          = (renderEvents (Screen.blank, GridState.empty) es).1 p := by
  intro c w h hini p hw hh
  have hinv := renderEvents_inv es Screen.blank GridState.empty
    (by intro p2; rfl) hbn
  rw [snd_renderEvents es Screen.blank GridState.empty] at hinv
  unfold ScreenInv at hinv
  rw [hini] at hinv
  obtain ⟨hin, -⟩ := hinv
  have hri : (GridState.empty.addEvents es).recoverImage
      = fun q : Nat × Nat =>
          match (GridState.empty.addEvents es).changes q with
          | some v => some v
          | none => if q.1 < w ∧ q.2 < h then some c else none := by
    unfold GridState.recoverImage
    rw [hini]
  rw [hri]
  have hscr := hin p hw hh
  cases hcp : (GridState.empty.addEvents es).changes p with
  | none =>
    rw [GridState.valueAt, hcp] at hscr
    simp only [Option.getD] at hscr
    rw [hscr]
    show (match (GridState.empty.addEvents es).changes p with
      | some v2 => some v2
      | none => if p.1 < w ∧ p.2 < h then some c else none) = some c
    rw [hcp]
    simp [hw, hh]
  | some v =>
    rw [GridState.valueAt, hcp] at hscr
    simp only [Option.getD] at hscr
    rw [hscr]
    show (match (GridState.empty.addEvents es).changes p with
      | some v2 => some v2
      | none => if p.1 < w ∧ p.2 < h then some c else none) = some v
    rw [hcp]

/-- Witness for C1 on the three-event demo sequence. -/
theorem C1_witness :
    headIsInitial demo3 = true ∧
    inBoundsSeq none demo3 = true ∧
    (GridState.empty.addEvents demo3).recoverImage (0, 0)
      = (renderEvents (Screen.blank, GridState.empty) demo3).1 (0, 0) :=
  ⟨by rfl, by rfl,
   C1_diff_state_equivalence demo3 (by rfl) (by rfl)
     GridCell.EMPTY 2 2 rfl (0, 0) (by decide) (by decide)⟩

/-! ## Claim C6 -/

/-- C6 as stated is false: on a paused renderer whose current event is an
`Initial` with an older `Initial` retained in history, Backward is not
disallowed — the cursor moves back one step and the grid is reverted past
the `Initial` (`recover_from_history` replays from the older initial). -/
theorem C6_counterexample :
    c6State.history.current_event = some (.initial GridCell.EMPTY 1 1) ∧
    (backwardStep c6State).1.history.history_index ≠
      c6State.history.history_index ∧
    (backwardStep c6State).2 = BackwardMsg.revertedPastInitial :=
  ⟨rfl, by decide, by decide⟩

lemma history_backward_lt (h : GridEventHistory)
    (hlt : h.history_index + 1 < h.event_history.length) :
    h.history_backward
      = (some (h.event_history.get ⟨h.history_index + 1, hlt⟩),
         { h with history_index := h.history_index + 1 }) := by
  unfold GridEventHistory.history_backward
  rw [if_neg (by omega), List.get?_eq_get hlt]

lemma history_backward_ge (h : GridEventHistory)
    (hge : h.event_history.length ≤ h.history_index + 1) :
    h.history_backward = (none, h) := by
  unfold GridEventHistory.history_backward
  rw [if_pos hge]

lemma recoverFromHistory_history (st : RenderSt) :
    (recoverFromHistory st).1.history = st.history := by
  unfold recoverFromHistory
  dsimp only
  split <;> rfl

lemma recoverFromHistory_false (st : RenderSt)
    (hf : (recoverFromHistory st).2 = false) :
    findInitial
        (st.history.event_history.drop (st.history.history_index + 1))
      = none ∧
    recoverFromHistory st = (st, false) := by
  unfold recoverFromHistory at hf ⊢
  cases hfi : findInitial
      (st.history.event_history.drop (st.history.history_index + 1)) with
  | none =>
    refine ⟨rfl, ?_⟩
    dsimp only
    rw [hfi]
  | some r =>
    obtain ⟨k, c, w, h⟩ := r
    dsimp only at hf
    rw [hfi] at hf
    simp at hf

/-- C6 amended: while paused, on Backward: with no current event the step is
a no-op; on an `Update` at the oldest retained event the state is unchanged
and the operator is informed; on an `Update` elsewhere the cursor moves back
one step and the synthesized inverse (old/new swapped) is painted (at its
coordinate, whenever grid dimensions are set); on an `Initial` at the oldest
retained event the state is unchanged and the operator is informed; on an
`Initial` elsewhere the cursor moves back one step and the grid is reverted
to the state before that initial when an older initial exists in history —
otherwise the whole state is restored and the operator is informed. -/
theorem C6_backward_amended (st : RenderSt) :
    (st.history.current_event = none →
      backwardStep st = (st, .noCurrentEvent)) ∧
    (∀ coord old new,
      st.history.current_event = some (.update coord old new) →
      (st.history.event_history.length ≤ st.history.history_index + 1 →
        backwardStep st = (st, .alreadyAtOldestAfterRevert)) ∧
      (st.history.history_index + 1 < st.history.event_history.length →
        (backwardStep st).2 = .paintedInverse (.update coord new old) ∧
        (backwardStep st).1.history.history_index
          = st.history.history_index + 1 ∧
        (backwardStep st).1.history.event_history
          = st.history.event_history ∧
        (st.grid_state.initial.isSome →
          (backwardStep st).1.screen coord = some old))) ∧
    (∀ c w h,
      st.history.current_event = some (.initial c w h) →
      (st.history.event_history.length ≤ st.history.history_index + 1 →
        backwardStep st = (st, .alreadyAtOldest)) ∧
      (st.history.history_index + 1 < st.history.event_history.length →
        ((backwardStep st).2 = .revertedPastInitial ∧
         (backwardStep st).1.history.history_index
           = st.history.history_index + 1 ∧
         (backwardStep st).1.history.event_history
           = st.history.event_history) ∨
        (findInitial
            (st.history.event_history.drop (st.history.history_index + 1 + 1))
          = none ∧
         backwardStep st = (st, .noInitialFound)))) := by
  refine ⟨?_, ?_, ?_⟩
  · intro hnone
    unfold backwardStep
    rw [hnone]
  · intro coord old new hcur
    constructor
    · intro hge
      unfold backwardStep
      split
      next heq => rw [hcur] at heq; simp at heq
      next a b c heq => rw [hcur] at heq; simp at heq
      next coord2 old2 new2 heq =>
        rw [hcur] at heq
        simp only [Option.some.injEq, GridEvent.update.injEq] at heq
        obtain ⟨hc, ho, hn⟩ := heq
        subst hc; subst ho; subst hn
        split
        next snd heq2 => rfl
        next val h2 heq2 =>
          rw [history_backward_ge st.history hge] at heq2
          simp at heq2
    · intro hlt
      unfold backwardStep
      split
      next heq => rw [hcur] at heq; simp at heq
      next a b c heq => rw [hcur] at heq; simp at heq
      next coord2 old2 new2 heq =>
        rw [hcur] at heq
        simp only [Option.some.injEq, GridEvent.update.injEq] at heq
        obtain ⟨hc, ho, hn⟩ := heq
        subst hc; subst ho; subst hn
        split
        next snd heq2 =>
          rw [history_backward_lt st.history hlt] at heq2
          simp at heq2
        next val h2 heq2 =>
          rw [history_backward_lt st.history hlt] at heq2
          simp only [Prod.mk.injEq, Option.some.injEq] at heq2
          obtain ⟨-, hh2⟩ := heq2
          subst hh2
          refine ⟨rfl, rfl, rfl, ?_⟩
          intro hks
          obtain ⟨x, hx⟩ := Option.isSome_iff_exists.mp hks
          have hd : (st.grid_state.dims).isSome = true := by
            simp [GridState.dims, hx]
          show (if (st.grid_state.dims).isSome = true
              then Screen.paintCell st.screen coord old
              else st.screen) coord = some old
          rw [if_pos hd]
          simp [Screen.paintCell]
  · intro c w h hcur
    constructor
    · intro hge
      unfold backwardStep
      split
      next heq => rw [hcur] at heq; simp at heq
      next a b cc heq =>
        split
        next snd heq2 => rfl
        next val h2 heq2 =>
          rw [history_backward_ge st.history hge] at heq2
          simp at heq2
      next coord2 old2 new2 heq => rw [hcur] at heq; simp at heq
    · intro hlt
      unfold backwardStep
      split
      next heq => rw [hcur] at heq; simp at heq
      next a b cc heq =>
        split
        next snd heq2 =>
          rw [history_backward_lt st.history hlt] at heq2
          simp at heq2
        next val h2 heq2 =>
          rw [history_backward_lt st.history hlt] at heq2
          simp only [Prod.mk.injEq, Option.some.injEq] at heq2
          obtain ⟨-, hh2⟩ := heq2
          subst hh2
          split
          next st2 heq3 =>
            left
            have hh : st2.history
                = ({ st with history :=
                    { st.history with
                      history_index := st.history.history_index + 1 } }
                      : RenderSt).history := by
              rw [← recoverFromHistory_history
                ({ st with history :=
                  { st.history with
                    history_index := st.history.history_index + 1 } }
                  : RenderSt), heq3]
            exact ⟨rfl, by rw [hh], by rw [hh]⟩
          next st2 heq3 =>
            right
            have hrf := recoverFromHistory_false
              ({ st with history :=
                { st.history with
                  history_index := st.history.history_index + 1 } }
                : RenderSt) (by rw [heq3])
            obtain ⟨hfi, hre⟩ := hrf
            refine ⟨hfi, ?_⟩
            rw [heq3] at hre
            simp only [Prod.mk.injEq] at hre
            obtain ⟨hst2, -⟩ := hre
            subst hst2
            rfl
      next coord2 old2 new2 heq => rw [hcur] at heq; simp at heq

/-- Witness for the amended C6: Backward on a paused renderer whose current
event is an `Update` not at the oldest entry paints the inverse and moves
the cursor back one step. -/
theorem C6_witness :
    (backwardStep c6WitnessState).2
      = .paintedInverse (.update (0, 0) GridCell.WALL GridCell.EMPTY) ∧
    (backwardStep c6WitnessState).1.history.history_index = 1 ∧
    (backwardStep c6WitnessState).1.screen (0, 0) = some GridCell.EMPTY :=
  have hmain := ((C6_backward_amended c6WitnessState).2.1 (0, 0)
    GridCell.EMPTY GridCell.WALL rfl).2 (by decide)
  ⟨hmain.1, hmain.2.1, hmain.2.2.2 rfl⟩

/-! ## Claim C9 -/

lemma sendAll_ok : ∀ (es : List GridEvent) (ch : SyncChannel),
    ch.pending.length + es.length ≤ ch.cap →
    ch.sendAll es = some { pending := ch.pending ++ es, cap := ch.cap } := by
  intro es
  induction es with
  | nil =>
    intro ch hle
    obtain ⟨p, c⟩ := ch
    simp [SyncChannel.sendAll]
  | cons f fs ih =>
    intro ch hle
    have hlt : ch.pending.length < ch.cap := by
      simp only [List.length_cons] at hle
      omega
    unfold SyncChannel.sendAll SyncChannel.send
    rw [if_pos hlt]
    dsimp only
    have hstep := ih { pending := ch.pending ++ [f], cap := ch.cap }
      (by
        simp only [List.length_cons] at hle
        simp
        omega)
    rw [hstep]
    simp

/-- C9: on the grid-event channel of capacity
`MAX_EVENTS_IN_CHANNEL_BUFFER` (1000), the first 1000 sends all succeed
without blocking (leaving all 1000 events pending in order), the 1001st send
blocks while the consumer drains nothing, and as soon as the consumer
receives one event the blocked send succeeds. -/
theorem C9_backpressure (es : List GridEvent) (e : GridEvent)
    (hlen : es.length = MAX_EVENTS_IN_CHANNEL_BUFFER) :
    gridEventChannel.sendAll es
      = some { pending := es, cap := MAX_EVENTS_IN_CHANNEL_BUFFER } ∧
    SyncChannel.send
      { pending := es, cap := MAX_EVENTS_IN_CHANNEL_BUFFER } e
      = .blocked ∧
    (∀ ev2 ch2,
      SyncChannel.recv { pending := es, cap := MAX_EVENTS_IN_CHANNEL_BUFFER }
        = some (ev2, ch2) →
      ∃ ch3, ch2.send e = .sent ch3) := by
  refine ⟨?_, ?_, ?_⟩
  · have := sendAll_ok es gridEventChannel
      (by simp [gridEventChannel, hlen])
    simpa [gridEventChannel] using this
  · unfold SyncChannel.send
    rw [if_neg (by simp [hlen])]
  · intro ev2 ch2 hrecv
    cases es with
    | nil => simp [MAX_EVENTS_IN_CHANNEL_BUFFER] at hlen
    | cons hd tl =>
      have hr : SyncChannel.recv
          { pending := hd :: tl, cap := MAX_EVENTS_IN_CHANNEL_BUFFER }
          = some (hd, { pending := tl,
                        cap := MAX_EVENTS_IN_CHANNEL_BUFFER }) := rfl
      rw [hr] at hrecv
      simp only [Option.some.injEq, Prod.mk.injEq] at hrecv
      obtain ⟨-, hch2⟩ := hrecv
      subst hch2
      have hlt2 : ({ pending := tl, cap := MAX_EVENTS_IN_CHANNEL_BUFFER }
          : SyncChannel).pending.length
          < ({ pending := tl, cap := MAX_EVENTS_IN_CHANNEL_BUFFER }
          : SyncChannel).cap := by
        show tl.length < MAX_EVENTS_IN_CHANNEL_BUFFER
        simp only [List.length_cons, MAX_EVENTS_IN_CHANNEL_BUFFER] at hlen ⊢
        omega
      refine ⟨{ pending := tl ++ [e],
                cap := MAX_EVENTS_IN_CHANNEL_BUFFER }, ?_⟩
      unfold SyncChannel.send
      rw [if_pos hlt2]

/-- Witness for C9: 1000 `Initial` events fill the channel, the next send
blocks, and one receive unblocks it. -/
theorem C9_witness :
    c9Events.length = MAX_EVENTS_IN_CHANNEL_BUFFER ∧
    gridEventChannel.sendAll c9Events
      = some { pending := c9Events, cap := MAX_EVENTS_IN_CHANNEL_BUFFER } ∧
    SyncChannel.send
      { pending := c9Events, cap := MAX_EVENTS_IN_CHANNEL_BUFFER }
      (.initial GridCell.EMPTY 1 1)
      = .blocked :=
  ⟨by simp [c9Events],
   (C9_backpressure c9Events (.initial GridCell.EMPTY 1 1)
     (by simp [c9Events])).1,
   (C9_backpressure c9Events (.initial GridCell.EMPTY 1 1)
     (by simp [c9Events])).2.1⟩

/-! ## Claim C10 -/

/-- C10 as stated is false for coordinates whose raveled index falls outside
the data slice: on a 2×2 grid, `set((5,5), Wall)` indexes position 15 of a
4-cell slice, so the Rust code panics (the embedding returns `none`) instead
of storing the cell and emitting an update. -/
theorem C10_counterexample :
    ¬ ∃ r, c10Grid.set (5, 5) GridCell.WALL = some r := by
  intro hex
  obtain ⟨r, hr⟩ := hex
  have hnone : c10Grid.set (5, 5) GridCell.WALL = none := rfl
  rw [hnone] at hr
  simp at hr

/-- C10 amended: for every grid, cell value, and coordinate whose raveled
index lies within the data slice, `Grid::set` is a no-op emitting no event
when the stored value already equals the new cell, and otherwise stores the
new cell and emits exactly one `Update` whose `old` field is the value
stored immediately before the call (hence `old ≠ new`). -/
theorem C10_set_amended (g : Grid) (coord : Nat × Nat) (cell : GridCell)
    (hidx : g.ravel_index coord.1 coord.2 < g.data.length) :
    (g.data.get? (g.ravel_index coord.1 coord.2) = some cell →
      g.set coord cell = some (g, [])) ∧
    (∀ old, g.data.get? (g.ravel_index coord.1 coord.2) = some old →
      old ≠ cell →
      g.set coord cell
        = some ({ g with
                  data := g.data.set (g.ravel_index coord.1 coord.2) cell },
                [.update coord old cell])) := by
  constructor
  · intro hget
    unfold Grid.set
    dsimp only
    rw [hget]
    simp
  · intro old hget hne
    unfold Grid.set
    dsimp only
    rw [hget]
    simp [hne]

/-- Witness for the amended C10 on the 2×2 empty grid at the in-range
coordinate (1,0): a same-value set is a silent no-op, a differing set stores
and emits one accurate update. -/
theorem C10_witness :
    c10Grid.set (1, 0) GridCell.EMPTY = some (c10Grid, []) ∧
    c10Grid.set (1, 0) GridCell.WALL
      = some ({ c10Grid with data := c10Grid.data.set 1 GridCell.WALL },
              [.update (1, 0) GridCell.EMPTY GridCell.WALL]) :=
  ⟨(C10_set_amended c10Grid (1, 0) GridCell.EMPTY (by decide)).1 rfl,
   (C10_set_amended c10Grid (1, 0) GridCell.WALL (by decide)).2
     GridCell.EMPTY rfl (by decide)⟩

end Mazest
